import Mathlib

namespace ExpenseTracker

/-! Shallow embedding of the tolerant spreadsheet loader
(`ExpenseAnalytics.get_expenses_dataframe`) and of the duplicate detector
(`ExpenseAnalytics.detect_duplicates`) from `src/analytics_engine.py`.

Python floats are modelled as rationals; dates are rational day counts since
the Unix epoch.  The external parsing primitives, `pd.to_numeric` and
`pd.to_datetime` applied to string cells, and the `fuzzywuzzy` ratio, are
parameters of the embedding (they are third-party library calls, not code of
this repository); concrete stand-in models are supplied further below so that
theorems can be exercised on closed inputs. -/

abbrev Row := List String

/-- ASCII lower-casing of one code point, as Python `str.lower` acts on the
ASCII range relevant to the keyword scans. -/
def lowerChar (c : Char) : Char :=
  if 65 ≤ c.toNat && c.toNat ≤ 90 then Char.ofNat (c.toNat + 32) else c

/-- Python `str.lower`. -/
def pyLower (s : String) : String := String.mk (s.data.map lowerChar)

def isSpaceChar (c : Char) : Bool :=
  c == ' ' || c == '\t' || c == '\n' || c == '\r' || c == '\x0b' || c == '\x0c'

/-- Python `str.strip()`: drop leading and trailing whitespace. -/
def pyStrip (s : String) : String :=
  String.mk (((s.data.dropWhile isSpaceChar).reverse.dropWhile isSpaceChar).reverse)

def startsWithB : List Char → List Char → Bool
  | [], _ => true
  | _ :: _, [] => false
  | p :: ps, c :: cs => p == c && startsWithB ps cs

def containsB (pat : List Char) : List Char → Bool
  | [] => pat.isEmpty
  | c :: rest => startsWithB pat (c :: rest) || containsB pat rest

/-- Python substring containment, `pat in s`, over code points. -/
def substrOf (pat s : String) : Bool := containsB pat.data s.data

/-- Keyword list from line 38 of `analytics_engine.py`. -/
def headerKeywords : List String := ["date", "amount", "store", "merchant", "category"]

/-- Line 36: the row text is the space-joined lower-cased cells. -/
def rowText (row : Row) : String :=
  String.mk (((row.map (fun s => (pyLower s).data)).intersperse [' ']).flatten)

/-- Lines 35-38: a header row has at least 3 cells and its concatenated
lower-cased text contains one of the keywords. -/
def isHeaderRow (row : Row) : Bool :=
  decide (3 ≤ row.length) && headerKeywords.any (fun k => substrOf k (rowText row))

/-- Line 47: the canonical fallback header list. -/
def defaultHeaders : List String :=
  ["Date", "Store/Merchant", "Amount", "Category", "Payment Method", "Notes",
   "Receipt Date", "Added Date"]

/-- Lines 34-42: index of the first header-like row, if any. -/
def findHeaderIdx (rows : List Row) : Option Nat := rows.findIdx? isHeaderRow

/-- Lines 44-50: discovered headers, or the canonical fallback list. -/
def headersOf (rows : List Row) : Row :=
  match findHeaderIdx rows with
  | some i => rows.getD i []
  | none => defaultHeaders

/-- Lines 39 and 48: index of the first data row. -/
def dataStartOf (rows : List Row) : Nat :=
  match findHeaderIdx rows with
  | some i => i + 1
  | none => 0

/-- Last position carrying a given header label; Python dict assignment in the
loop of lines 72-76 lets a later duplicate label overwrite an earlier one. -/
def lastIdxOf (headers : Row) (c : String) : Nat :=
  headers.enum.foldl (fun acc p => if p.2 == c then p.1 else acc) 0

/-- Lines 72-76: the cell stored under label `c`, with cells missing from a
short row read as the empty string. -/
def cellOf (headers row : Row) (c : String) : String :=
  row.getD (lastIdxOf headers c) ""

/-- Distinct header labels in first-occurrence order: the key order of the
Python record dict, hence the DataFrame column order. -/
def dedupKeys : Row → List String → List String
  | [], _ => []
  | h :: t, seen => if h ∈ seen then dedupKeys t seen else h :: dedupKeys t (h :: seen)

def columnsOf (headers : Row) : List String := dedupKeys headers []

/-- Line 60: keep raw rows having some non-whitespace cell. -/
def dataRowsOf (rows : List Row) : List Row :=
  (rows.drop (dataStartOf rows)).filter (fun row => row.any (fun c => pyStrip c != ""))

/-- Lines 78-80: keep rows whose assembled record has some non-empty value. -/
def recRowsOf (rows : List Row) : List Row :=
  (dataRowsOf rows).filter (fun row =>
    (columnsOf (headersOf rows)).any (fun c => pyStrip (cellOf (headersOf rows) row c) != ""))

/-- Line 111: Python `str.replace` of the literal `PHP`, left to right,
non-overlapping. -/
def stripPHP : List Char → List Char
  | 'P' :: 'H' :: 'P' :: rest => stripPHP rest
  | c :: rest => c :: stripPHP rest
  | [] => []

/-- Line 111: strip thousands separators and currency markers, in the order
the source chains the replacements: comma, peso sign, `PHP`, `P`, dollar. -/
def cleanAmount (s : String) : String :=
  String.mk (((stripPHP ((s.data.filter (fun c => c != ',')).filter
      (fun c => c != '₱'))).filter (fun c => c != 'P')).filter (fun c => c != '$'))

/-- Lines 89-107: the amount column is the first whose label contains
`amount`, else the first whose values coerce to a number at least once. -/
def amtColOf (tn : String → Option ℚ) (rows : List Row) : Option String :=
  match (columnsOf (headersOf rows)).find? (fun c => substrOf "amount" (pyLower c)) with
  | some c => some c
  | none =>
      (columnsOf (headersOf rows)).find? (fun c =>
        (recRowsOf rows).any (fun row => (tn (cellOf (headersOf rows) row c)).isSome))

/-- Line 122: a header names a date column when it contains `date` but
neither `added` nor `receipt`. -/
def dateHeaderPred (c : String) : Bool :=
  substrOf "date" (pyLower c) && !substrOf "added" (pyLower c) && !substrOf "receipt" (pyLower c)

def hdrDateOf (rows : List Row) : Option String :=
  (columnsOf (headersOf rows)).find? dateHeaderPred

/-- Line 111 assigns the cleaned numeric series to column `Amount`: the
DataFrame scanned by the date fallback has that column appended when no such
label existed (otherwise overwritten in place). -/
def postAmountCols (cols : List String) : List String :=
  if "Amount" ∈ cols then cols else cols ++ ["Amount"]

/-- Nanoseconds to days: `pd.to_datetime` applied to a numeric series reads
the values as Unix epoch nanoseconds (its default unit).  Stated through
`mkRat` for computability; `nsToDays_eq` below shows it is division by the
number of nanoseconds in a day. -/
def nsToDays (n : ℚ) : ℚ := mkRat n.num (n.den * 86400000000000)

/-- Value that line 133 `pd.to_datetime(df[col], ...)` yields for one row:
the `Amount` column holds the cleaned numbers, read as epoch nanoseconds;
every other column still holds raw strings, fed to the string date parser. -/
def dateValInCol (tn td : String → Option ℚ) (rows : List Row) (amtCol c : String)
    (row : Row) : Option ℚ :=
  if c == "Amount" then (tn (cleanAmount (cellOf (headersOf rows) row amtCol))).map nsToDays
  else td (cellOf (headersOf rows) row c)

/-- Lines 130-139: first column, in DataFrame order, with at least one
date-parseable value. -/
def fbDateOf (tn td : String → Option ℚ) (rows : List Row) (amtCol : String) :
    Option String :=
  (postAmountCols (columnsOf (headersOf rows))).find? (fun c =>
    (recRowsOf rows).any (fun row => (dateValInCol tn td rows amtCol c row).isSome))

/-- Lines 141-148: first column whose label contains `category`. -/
def categoryColOf (rows : List Row) : Option String :=
  (columnsOf (headersOf rows)).find? (fun c => substrOf "category" (pyLower c))

def merchantPred (c : String) : Bool :=
  substrOf "store" (pyLower c) || substrOf "merchant" (pyLower c) || substrOf "vendor" (pyLower c)

/-- Lines 150-157: first column whose label contains `store`, `merchant` or
`vendor`. -/
def merchantColOf (rows : List Row) : Option String :=
  (columnsOf (headersOf rows)).find? merchantPred

/-- One row of the DataFrame after normalization, before the final filter. -/
structure NormRecord where
  amount : Option ℚ
  date : Option ℚ
  category : Option String
  merchant : Option String
deriving DecidableEq

/-- Lines 109-157: normalized fields of one surviving row. -/
def normRecordOf (tn td : String → Option ℚ) (rows : List Row) (amtCol : String)
    (hd fb : Option String) (row : Row) : NormRecord :=
  { amount := tn (cleanAmount (cellOf (headersOf rows) row amtCol))
    date :=
      match hd with
      | some c => td (cellOf (headersOf rows) row c)
      | none =>
          match fb with
          | some c => dateValInCol tn td rows amtCol c row
          | none => none
    category := (categoryColOf rows).map (fun c => cellOf (headersOf rows) row c)
    merchant := (merchantColOf rows).map (fun c => cellOf (headersOf rows) row c) }

/-- Lines 159-165: keep records with a positive parsed amount and, when a
date column exists, a parsed date. -/
def keepRecord (hasDate : Bool) (r : NormRecord) : Bool :=
  (match r.amount with
   | some q => decide (0 < q)
   | none => false) &&
  (!hasDate || r.date.isSome)

/-- The normalized unit handed to analytics code. -/
structure ExpenseRecord where
  amount : ℚ
  date : Option ℚ
  category : Option String
  merchant : Option String
deriving DecidableEq

def finalize (r : NormRecord) : ExpenseRecord :=
  { amount := r.amount.getD 0, date := r.date, category := r.category,
    merchant := r.merchant }

/-- Lines 126-139: the fallback scan runs only when no header names a date
column. -/
def fbDateSel (tn td : String → Option ℚ) (rows : List Row) (amtCol : String) :
    Option String :=
  if (hdrDateOf rows).isSome then none else fbDateOf tn td rows amtCol

/-- Line 164: whether the final DataFrame has a `Date` column. -/
def hasDateCol (tn td : String → Option ℚ) (rows : List Row) (amtCol : String) : Bool :=
  (hdrDateOf rows).isSome || (fbDateSel tn td rows amtCol).isSome

/-- Lines 109-165: normalized records surviving the final filter. -/
def keptOf (tn td : String → Option ℚ) (rows : List Row) (amtCol : String) :
    List NormRecord :=
  ((recRowsOf rows).map
      (normRecordOf tn td rows amtCol (hdrDateOf rows) (fbDateSel tn td rows amtCol))).filter
    (keepRecord (hasDateCol tn td rows amtCol))

/-- Embedding of `get_expenses_dataframe` (lines 16-184): `none` models every
`return None` path; parameters `tn` and `td` are the external numeric and
string date parsers. -/
def load (tn td : String → Option ℚ) (rows : List Row) : Option (List ExpenseRecord) :=
  if rows = [] then none
  else if dataStartOf rows < rows.length then
    if dataRowsOf rows = [] then none
    else if recRowsOf rows = [] then none
    else
      match amtColOf tn rows with
      | none => none
      | some amtCol =>
        if keptOf tn td rows amtCol = [] then none
        else some ((keptOf tn td rows amtCol).map finalize)
  else none

/-! Embedding of `detect_duplicates` (lines 269-364).  The detector consumes
the DataFrame produced by the loader: a record list plus the fact of whether
a `Date` column exists.  The `fuzzywuzzy` similarity is a parameter
`ratio`. -/

/-- Lines 290-291: `df.tail(20)`, the last `n` rows in order. -/
def lastN (n : Nat) (l : List ExpenseRecord) : List ExpenseRecord :=
  l.drop (l.length - n)

/-- Lines 284-292: the candidate pool is the rows dated within the last 30
days when a `Date` column exists, else the last 20 rows. -/
def candidatePool (hasDate : Bool) (now : ℚ) (records : List ExpenseRecord) :
    List ExpenseRecord :=
  if hasDate then
    records.filter (fun r =>
      match r.date with
      | some d => decide (now - 30 ≤ d)
      | none => false)
  else lastN 20 records

/-- Lines 307-310: the merchant text of a stored record, lower-cased and
trimmed, empty when no merchant column exists. -/
def expMerchantOf (r : ExpenseRecord) : String :=
  match r.merchant with
  | some m => pyStrip (pyLower m)
  | none => ""

/-- Lines 316-318: similarity is computed only when both strings are
non-empty, else it stays 0. -/
def merchantSimilarity (ratioFn : String → String → Nat) (newM expM : String) : Nat :=
  if newM ≠ "" ∧ expM ≠ "" then ratioFn expM newM else 0

/-- Python `abs` on a rational. -/
def ratAbs (q : ℚ) : ℚ := if q < 0 then -q else q

/-- Lines 320-335: the tiered classification, first match decides; `some`
carries the match reason, `none` means not a duplicate. -/
def classifyRecord (ratioFn : String → String → Nat) (newAmount : ℚ) (newM : String)
    (r : ExpenseRecord) : Option String :=
  let diff := ratAbs (r.amount - newAmount)
  let sim := merchantSimilarity ratioFn newM (expMerchantOf r)
  if diff = 0 ∧ 70 ≤ sim then some "Exact amount + similar merchant"
  else if diff ≤ 2 ∧ 85 ≤ sim then some "Very close amount + very similar merchant"
  else if diff = 0 ∧ (newM = "" ∨ expMerchantOf r = "") then
    some "Exact amount (merchant info missing)"
  else none

/-- One entry of `duplicates_found` (lines 339-346). -/
structure DupInfo where
  amount : ℚ
  merchant : String
  date : Option ℚ
  reason : String
  similarity : Nat
deriving DecidableEq

/-- Lines 301-348: scan the pool in order, collecting every qualifying
record. -/
def duplicatesFound (ratioFn : String → String → Nat) (hasDate : Bool) (now : ℚ)
    (newAmount : ℚ) (newMerchantRaw : String) (records : List ExpenseRecord) :
    List DupInfo :=
  let newM := pyStrip (pyLower newMerchantRaw)
  (candidatePool hasDate now records).filterMap (fun r =>
    (classifyRecord ratioFn newAmount newM r).map (fun reason =>
      { amount := r.amount
        merchant := if expMerchantOf r = "" then "Unknown" else expMerchantOf r
        date := if hasDate then r.date else none
        reason := reason
        similarity := merchantSimilarity ratioFn newM (expMerchantOf r) }))

/-- Line 352: Python `max(..., key=...)` keeps the first element attaining
the maximal key, replacing only on strictly greater keys. -/
def bestMatch : List DupInfo → Option DupInfo
  | [] => none
  | x :: xs => some (xs.foldl (fun b y => if b.similarity < y.similarity then y else b) x)

/-- Observable outcome of `detect_duplicates`: the verdict, the best match
reported in the message, and how many similar receipts were found. -/
structure DupResult where
  isDup : Bool
  best : Option DupInfo
  count : Nat
deriving DecidableEq

/-- Lines 350-364 of `detect_duplicates`. -/
def detectDuplicates (ratioFn : String → String → Nat) (hasDate : Bool) (now : ℚ)
    (newAmount : ℚ) (newMerchantRaw : String) (records : List ExpenseRecord) :
    DupResult :=
  if duplicatesFound ratioFn hasDate now newAmount newMerchantRaw records = [] then
    { isDup := false, best := none, count := 0 }
  else
    { isDup := true,
      best := bestMatch (duplicatesFound ratioFn hasDate now newAmount newMerchantRaw records),
      count := (duplicatesFound ratioFn hasDate now newAmount newMerchantRaw records).length }

/-! Concrete stand-ins for the external parsing primitives, used to run the
embedding on closed inputs. -/

def natOfDigits (l : List Char) : Nat :=
  l.foldl (fun n c => 10 * n + (c.toNat - 48)) 0

/-- Modelled from the spec: `pd.to_numeric(..., errors="coerce")` is an
external pandas primitive; modelled on plain decimal literals (optional
sign, digits, at most one decimal point, surrounding whitespace), with
everything else missing. -/
def toNumericModel (s : String) : Option ℚ :=
  let t := (pyStrip s).data
  let sgn : Int := match t with
    | '-' :: _ => -1
    | _ => 1
  let u := match t with
    | '-' :: r => r
    | '+' :: r => r
    | r => r
  let ip := u.takeWhile Char.isDigit
  match u.drop ip.length with
  | [] => if ip.isEmpty then none else some (Rat.ofInt (sgn * Int.ofNat (natOfDigits ip)))
  | '.' :: fp =>
    if fp.all Char.isDigit && (!ip.isEmpty || !fp.isEmpty) then
      some (mkRat (sgn * Int.ofNat (natOfDigits ip * 10 ^ fp.length + natOfDigits fp))
        (10 ^ fp.length))
    else none
  | _ => none

/-- Modelled from the spec: stand-in for the external string date parser
(`pd.to_datetime` with day-first preference) on ISO `YYYY-MM-DD` literals,
returning a day count; used only to instantiate the parser parameters of
theorems on closed inputs. -/
def toDateModel (s : String) : Option ℚ :=
  match (pyStrip s).data with
  | [y1, y2, y3, y4, '-', m1, m2, '-', d1, d2] =>
    if [y1, y2, y3, y4, m1, m2, d1, d2].all Char.isDigit then
      some (Rat.ofInt (Int.ofNat (365 * natOfDigits [y1, y2, y3, y4]
        + 30 * natOfDigits [m1, m2] + natOfDigits [d1, d2])))
    else none
  | _ => none

/-! Concrete inputs used to exercise the embedding on closed instances. -/

/-- Input of testable property 3 of the spec. -/
def c4rows : List Row :=
  [["foo", "bar"], ["Date", "Amount", "Category"], ["2024-01-01", "12.50", "Food"]]

/-- A table with a header row but no amount-like header and no
numeric-coercible cell anywhere. -/
def noAmountRows : List Row := [["Date", "Store", "Notes"], ["a", "b", "c"]]

/-- A table with no date-like header and no date-like cell value. -/
def noDateRows : List Row := [["Store", "Amount", "Notes"], ["Jollibee", "100", "note"]]

/-- A simple stand-in similarity: 100 on equal strings, 0 otherwise. -/
def simW : String → String → Nat := fun a b => if a == b then 100 else 0

/-- A stored record used in detector witnesses. -/
def wRec : ExpenseRecord :=
  { amount := Rat.ofInt 5, date := none, category := none, merchant := some "a" }

/-- A dated record used in pool-selection witnesses. -/
def wRecDated : ExpenseRecord :=
  { amount := Rat.ofInt 5, date := some (Rat.ofInt 60), category := none, merchant := none }

/-! Definitions written from the wording of the spec, for refinement
statements. -/

/-- Spec wording: merchant similarity is computed between the lower-cased,
trimmed strings only when both are non-empty, else treated as 0. -/
def specMerchantSimilarity (ratioFn : String → String → Nat) (candM recM : String) : Nat :=
  if candM = "" ∨ recM = "" then 0 else ratioFn recM candM

/-- Spec wording: the classification table, rules evaluated in order with
the first matching rule deciding; `none` is the final `not a duplicate`
row. -/
def specDuplicateVerdict (diff : ℚ) (sim : Nat) (candEmpty recEmpty : Prop)
    [Decidable candEmpty] [Decidable recEmpty] : Option String :=
  if diff = 0 ∧ 70 ≤ sim then some "Exact amount + similar merchant"
  else if diff ≤ 2 ∧ 85 ≤ sim then some "Very close amount + very similar merchant"
  else if diff = 0 ∧ (candEmpty ∨ recEmpty) then some "Exact amount (merchant info missing)"
  else none

/-! Supporting lemmas. -/

theorem ratAbs_eq_abs (q : ℚ) : ratAbs q = |q| := by
  unfold ratAbs
  split
  · exact (abs_of_neg (by assumption)).symm
  · exact (abs_of_nonneg (le_of_not_lt (by assumption))).symm

theorem nsToDays_eq (n : ℚ) : nsToDays n = n / 86400000000000 := by
  unfold nsToDays
  rw [Rat.mkRat_eq_div]
  push_cast
  rw [div_mul_eq_div_div, Rat.num_div_den]

/-! Theorems for the claims. -/

/-- C4: header discovery takes as header the first row with at least 3 cells
whose concatenated lowercase text holds a keyword; on the three-row example
of the spec the second row is the header and the load result is exactly one
record with amount 12.50 (here `mkRat 25 2`) and category `Food`. -/
theorem header_skip_example :
    findHeaderIdx c4rows = some 1 ∧
    headersOf c4rows = ["Date", "Amount", "Category"] ∧
    load toNumericModel toDateModel c4rows =
      some [{ amount := mkRat 25 2, date := some (Rat.ofInt 738791),
              category := some "Food", merchant := none }] :=
  ⟨by decide, by decide, by decide⟩

/-- C5, code-bug evidence: on a table with no date-like header and a string
date parser that fails on every cell, the fallback date scan still selects
the cleaned numeric `Amount` column (pandas reads numbers as epoch
nanoseconds), so the surviving record carries a synthesized date instead of
being kept dateless. -/
theorem date_fallback_reads_amount_column :
    hdrDateOf noDateRows = none ∧
    fbDateOf toNumericModel (fun _ => none) noDateRows "Amount" = some "Amount" ∧
    load toNumericModel (fun _ => none) noDateRows =
      some [{ amount := Rat.ofInt 100, date := some (mkRat 1 864000000000),
              category := none, merchant := some "Jollibee" }] :=
  ⟨by decide, by decide, by decide⟩

/-- C8: amount normalization strips separators and currency markers before
decimal parsing, the example cell normalizes to exactly 1234.50 (here
`mkRat 2469 2`), and a cell whose stripped text the numeric parser rejects
is treated as a missing amount, which the final filter drops. -/
theorem currency_stripping_normalization :
    cleanAmount "₱1,234.50" = "1234.50" ∧
    toNumericModel (cleanAmount "₱1,234.50") = some (mkRat 2469 2) ∧
    ∀ (hasDate : Bool) (r : NormRecord), r.amount = none → keepRecord hasDate r = false := by
  refine ⟨by decide, by decide, ?_⟩
  intro hasDate r h
  unfold keepRecord
  rw [h]
  rfl

theorem currency_stripping_normalization_witness :
    keepRecord true { amount := none, date := none, category := none, merchant := none } =
      false :=
  currency_stripping_normalization.2.2 true
    { amount := none, date := none, category := none, merchant := none } rfl

/-- C9: when no row satisfies the header predicate, the canonical header
list is used and every input row is data (the data segment starts at row
0, so nothing is dropped as a header). -/
theorem default_headers_fallback (rows : List Row)
    (h : ∀ row ∈ rows, isHeaderRow row = false) :
    headersOf rows = defaultHeaders ∧ dataStartOf rows = 0 ∧
      rows.drop (dataStartOf rows) = rows := by
  have hidx : findHeaderIdx rows = none := by
    unfold findHeaderIdx
    exact List.findIdx?_eq_none_iff.mpr h
  refine ⟨?_, ?_, ?_⟩
  · unfold headersOf
    rw [hidx]
  · unfold dataStartOf
    rw [hidx]
  · unfold dataStartOf
    rw [hidx]
    rfl

theorem default_headers_fallback_witness :
    headersOf [["1", "2"]] = defaultHeaders ∧ dataStartOf [["1", "2"]] = 0 ∧
      [["1", "2"]].drop (dataStartOf [["1", "2"]]) = [["1", "2"]] :=
  default_headers_fallback [["1", "2"]] (by decide)

/-- C2: when no discovered column label contains `amount` and no column has
a value the numeric parser accepts, the load fails with the no-data result,
whatever the external parsers are. -/
theorem load_fails_without_amount (tn td : String → Option ℚ) (rows : List Row)
    (h1 : ∀ c ∈ columnsOf (headersOf rows), substrOf "amount" (pyLower c) = false)
    (h2 : ∀ c ∈ columnsOf (headersOf rows), ∀ row ∈ recRowsOf rows,
        tn (cellOf (headersOf rows) row c) = none) :
    load tn td rows = none := by
  have hA : amtColOf tn rows = none := by
    unfold amtColOf
    rw [List.find?_eq_none.mpr (by intro c hc; simp [h1 c hc])]
    exact List.find?_eq_none.mpr (by
      intro c hc
      simp only [Bool.not_eq_true, List.any_eq_false]
      intro row hrow
      simp [h2 c hc row hrow])
  unfold load
  rw [hA]
  split
  · rfl
  · split
    · split
      · rfl
      · split
        · rfl
        · rfl
    · rfl

theorem load_fails_without_amount_witness :
    load toNumericModel toDateModel noAmountRows = none :=
  load_fails_without_amount toNumericModel toDateModel noAmountRows
    (by decide) (by decide)

/-- C3: every record of a successful load has a positive amount; the final
filter keeps only records whose parsed amount exists and is positive. -/
theorem load_amount_positive (tn td : String → Option ℚ) (rows : List Row)
    (recs : List ExpenseRecord) (h : load tn td rows = some recs) :
    ∀ r ∈ recs, 0 < r.amount := by
  unfold load at h
  split at h
  · exact absurd h (by simp)
  · split at h
    · split at h
      · exact absurd h (by simp)
      · split at h
        · exact absurd h (by simp)
        · split at h
          · exact absurd h (by simp)
          · split at h
            · exact absurd h (by simp)
            · rw [Option.some_inj] at h
              subst h
              intro r hr
              rw [List.mem_map] at hr
              obtain ⟨n, hn, rfl⟩ := hr
              unfold keptOf at hn
              rw [List.mem_filter] at hn
              have hk := hn.2
              unfold keepRecord at hk
              rw [Bool.and_eq_true] at hk
              obtain ⟨ha, _⟩ := hk
              unfold finalize
              cases hamt : n.amount with
              | none => rw [hamt] at ha; exact absurd ha (by simp)
              | some q =>
                  rw [hamt] at ha
                  simp only [decide_eq_true_eq] at ha
                  simpa [hamt] using ha
    · exact absurd h (by simp)

theorem load_amount_positive_witness :
    0 < ({ amount := mkRat 25 2, date := some (Rat.ofInt 738791),
           category := some "Food", merchant := none } : ExpenseRecord).amount :=
  load_amount_positive toNumericModel toDateModel c4rows
    [{ amount := mkRat 25 2, date := some (Rat.ofInt 738791),
       category := some "Food", merchant := none }] (by decide) _
    (List.mem_singleton.mpr rfl)

/-- C10: a successful load never returns an empty record set; whenever
filtering leaves nothing (and on the earlier failure paths) the same
no-data value is returned instead. -/
theorem load_result_nonempty (tn td : String → Option ℚ) (rows : List Row)
    (recs : List ExpenseRecord) (h : load tn td rows = some recs) :
    recs ≠ [] := by
  unfold load at h
  split at h
  · exact absurd h (by simp)
  · split at h
    · split at h
      · exact absurd h (by simp)
      · split at h
        · exact absurd h (by simp)
        · split at h
          · exact absurd h (by simp)
          · split at h
            · exact absurd h (by simp)
            · rw [Option.some_inj] at h
              subst h
              simp only [ne_eq, List.map_eq_nil_iff]
              assumption
    · exact absurd h (by simp)

theorem load_result_nonempty_witness :
    [({ amount := mkRat 25 2, date := some (Rat.ofInt 738791),
        category := some "Food", merchant := none } : ExpenseRecord)] ≠ [] :=
  load_result_nonempty toNumericModel toDateModel c4rows _ (by decide)

/-- C1: the per-record decision that `duplicatesFound` applies to each pool
member equals the spec rule table, evaluated in order with the first match
deciding, on the absolute amount difference and on the merchant similarity
over lower-cased, trimmed strings; the similarity the source computes is 0
whenever either normalized merchant string is empty. -/
theorem duplicate_rule_table (ratioFn : String → String → Nat) (newAmount : ℚ)
    (newMerchantRaw : String) (r : ExpenseRecord) :
    merchantSimilarity ratioFn (pyStrip (pyLower newMerchantRaw)) (expMerchantOf r) =
      specMerchantSimilarity ratioFn (pyStrip (pyLower newMerchantRaw)) (expMerchantOf r) ∧
    classifyRecord ratioFn newAmount (pyStrip (pyLower newMerchantRaw)) r =
      specDuplicateVerdict |r.amount - newAmount|
        (specMerchantSimilarity ratioFn (pyStrip (pyLower newMerchantRaw)) (expMerchantOf r))
        (pyStrip (pyLower newMerchantRaw) = "") (expMerchantOf r = "") := by
  have hsim : merchantSimilarity ratioFn (pyStrip (pyLower newMerchantRaw)) (expMerchantOf r) =
      specMerchantSimilarity ratioFn (pyStrip (pyLower newMerchantRaw)) (expMerchantOf r) := by
    unfold merchantSimilarity specMerchantSimilarity
    by_cases ha : pyStrip (pyLower newMerchantRaw) = "" <;>
      by_cases hb : expMerchantOf r = "" <;> simp [ha, hb]
  refine ⟨hsim, ?_⟩
  unfold classifyRecord specDuplicateVerdict
  rw [ratAbs_eq_abs, hsim]

/-- C6: pool selection in the detector: with a date column the pool is
exactly the records dated on or after 30 days before now (in particular a
record dated 40 days ago is excluded); without a date column it is the last
20 records in insertion order. -/
theorem candidate_pool_selection (now : ℚ) (records : List ExpenseRecord) :
    (∀ r, r ∈ candidatePool true now records ↔
        r ∈ records ∧ ∃ d, r.date = some d ∧ now - 30 ≤ d) ∧
    (∀ r ∈ records, r.date = some (now - 40) → r ∉ candidatePool true now records) ∧
    candidatePool false now records = lastN 20 records := by
  have hmem : ∀ r, r ∈ candidatePool true now records ↔
      r ∈ records ∧ ∃ d, r.date = some d ∧ now - 30 ≤ d := by
    intro r
    unfold candidatePool
    rw [if_pos rfl, List.mem_filter]
    constructor
    · rintro ⟨hr, hp⟩
      refine ⟨hr, ?_⟩
      cases hd : r.date with
      | none => rw [hd] at hp; exact absurd hp (by simp)
      | some d =>
          rw [hd] at hp
          simp only [decide_eq_true_eq] at hp
          exact ⟨d, rfl, hp⟩
    · rintro ⟨hr, d, hd, hle⟩
      refine ⟨hr, ?_⟩
      rw [hd]
      simpa using hle
  refine ⟨hmem, ?_, rfl⟩
  intro r _ hdate hpool
  obtain ⟨-, d, hd, hle⟩ := (hmem r).mp hpool
  rw [hdate, Option.some_inj] at hd
  subst hd
  linarith

theorem candidate_pool_selection_witness :
    wRecDated ∉ candidatePool true (Rat.ofInt 100) [wRecDated] ∧
    candidatePool false (Rat.ofInt 100) [wRecDated] = lastN 20 [wRecDated] :=
  ⟨(candidate_pool_selection (Rat.ofInt 100) [wRecDated]).2.1 wRecDated
      (List.mem_singleton.mpr rfl) (by with_unfolding_all decide),
   (candidate_pool_selection (Rat.ofInt 100) [wRecDated]).2.2⟩

/-- Python `max(l, key=...)` keeps the first element attaining the maximal
key: the fold of line 352 splits its input around the reported best
element, with strictly smaller keys before it and no larger key anywhere. -/
theorem bestFold_first_max (xs : List DupInfo) (x : DupInfo) :
    ∃ pre post,
      x :: xs =
        pre ++ (List.foldl (fun b y => if b.similarity < y.similarity then y else b) x xs)
          :: post ∧
      (∀ y ∈ pre, y.similarity <
        (List.foldl (fun b y => if b.similarity < y.similarity then y else b) x xs).similarity) ∧
      ∀ y ∈ x :: xs, y.similarity ≤
        (List.foldl (fun b y => if b.similarity < y.similarity then y else b) x xs).similarity := by
  induction xs generalizing x with
  | nil => exact ⟨[], [], rfl, by simp, by simp⟩
  | cons y ys ih =>
      rw [List.foldl_cons]
      by_cases hlt : x.similarity < y.similarity
      · rw [if_pos hlt]
        obtain ⟨pre, post, heq, hpre, hall⟩ := ih y
        refine ⟨x :: pre, post, by rw [List.cons_append, ← heq], ?_, ?_⟩
        · intro z hz
          rcases List.mem_cons.mp hz with rfl | hz
          · exact lt_of_lt_of_le hlt (hall y (List.mem_cons_self y ys))
          · exact hpre z hz
        · intro z hz
          rcases List.mem_cons.mp hz with rfl | hz
          · exact le_of_lt (lt_of_lt_of_le hlt (hall y (List.mem_cons_self y ys)))
          · exact hall z hz
      · rw [if_neg hlt]
        obtain ⟨pre, post, heq, hpre, hall⟩ := ih x
        cases pre with
        | nil =>
            simp only [List.nil_append] at heq
            obtain ⟨hb, hpost⟩ := List.cons.inj heq
            refine ⟨[], y :: ys, ?_, by simp, ?_⟩
            · rw [List.nil_append, ← hb]
            · intro z hz
              rcases List.mem_cons.mp hz with rfl | hz
              · exact hall z (List.mem_cons_self z ys)
              · rcases List.mem_cons.mp hz with rfl | hz
                · calc z.similarity ≤ x.similarity := le_of_not_lt hlt
                    _ ≤ _ := hall x (List.mem_cons_self x ys)
                · exact hall z (List.mem_cons_of_mem x hz)
        | cons p pre' =>
            rw [List.cons_append] at heq
            obtain ⟨hp, hys⟩ := List.cons.inj heq
            subst hp
            refine ⟨x :: y :: pre', post, ?_, ?_, ?_⟩
            · rw [List.cons_append, List.cons_append, ← hys]
            · intro z hz
              rcases List.mem_cons.mp hz with rfl | hz
              · exact hpre z (List.mem_cons_self z pre')
              · rcases List.mem_cons.mp hz with rfl | hz
                · calc z.similarity ≤ x.similarity := le_of_not_lt hlt
                    _ < _ := hpre x (List.mem_cons_self x pre')
                · exact hpre z (List.mem_cons_of_mem x hz)
            · intro z hz
              rcases List.mem_cons.mp hz with rfl | hz
              · exact hall z (List.mem_cons_self z ys)
              · rcases List.mem_cons.mp hz with rfl | hz
                · calc z.similarity ≤ x.similarity := le_of_not_lt hlt
                    _ ≤ _ := hall x (List.mem_cons_self x ys)
                · exact hall z (List.mem_cons_of_mem x hz)

/-- C7: when more than one pool record qualifies, the detector reports the
qualifying record with the highest similarity as best match, taking the
first encountered in scan order among ties, and the reported count is the
number of all qualifying matches. -/
theorem best_match_policy (ratioFn : String → String → Nat) (hasDate : Bool)
    (now newAmount : ℚ) (newMerchantRaw : String) (records : List ExpenseRecord)
    (l : List DupInfo)
    (hl : duplicatesFound ratioFn hasDate now newAmount newMerchantRaw records = l)
    (hlen : 1 < l.length) :
    (detectDuplicates ratioFn hasDate now newAmount newMerchantRaw records).isDup = true ∧
    (detectDuplicates ratioFn hasDate now newAmount newMerchantRaw records).count = l.length ∧
    ∃ b pre post,
      (detectDuplicates ratioFn hasDate now newAmount newMerchantRaw records).best = some b ∧
      l = pre ++ b :: post ∧
      (∀ y ∈ pre, y.similarity < b.similarity) ∧
      ∀ y ∈ l, y.similarity ≤ b.similarity := by
  have hne : l ≠ [] := by
    intro hnil
    rw [hnil] at hlen
    simp at hlen
  unfold detectDuplicates
  rw [hl, if_neg hne]
  refine ⟨rfl, rfl, ?_⟩
  cases l with
  | nil => exact absurd rfl hne
  | cons x xs =>
      obtain ⟨pre, post, heq, hpre, hall⟩ := bestFold_first_max xs x
      exact ⟨_, pre, post, rfl, heq, hpre, hall⟩

theorem best_match_policy_witness :
    (detectDuplicates simW false 0 (Rat.ofInt 5) "a" [wRec, wRec]).count =
      (duplicatesFound simW false 0 (Rat.ofInt 5) "a" [wRec, wRec]).length :=
  (best_match_policy simW false 0 (Rat.ofInt 5) "a" [wRec, wRec]
    (duplicatesFound simW false 0 (Rat.ofInt 5) "a" [wRec, wRec]) rfl
    (by with_unfolding_all decide)).2.1

end ExpenseTracker
